import Mathlib

/-!
# SocketChat: verification of the E2E-encryption and room-fanout core

Shallow embedding of the encryption service, key-exchange client logic,
socket-server relay handlers, and client chat-state handlers of the
SocketChat repository, together with theorems settling the specification
claims about them.

Conventions of the embedding:
* Byte strings (`Uint8Array`, `ArrayBuffer`) are `List Nat` with entries
  intended `< 256`.  `TextEncoder`/`TextDecoder` are a bijection between
  strings and their UTF-8 byte sequences, so message plaintext is carried
  directly as its byte sequence.  The base64 transport encoding
  (`arrayBufferToBase64` / `base64ToArrayBuffer`) is a bijection between
  byte sequences and strings and is elided: envelopes are carried as the
  underlying byte sequence.
* WebCrypto primitives (ECDH on P-256, AES-GCM) are modelled algebraically:
  ECDH as commutative scalar action (`pub = priv * G`,
  `shared = priv * peerPub`, which yields the Diffie-Hellman symmetry
  `a*(b*G) = b*(a*G)`), AES-GCM as a keystream XOR cipher with an appended
  authentication tag over the ciphertext.  Randomness (key material, IVs)
  is passed as an explicit argument.
* TypeScript `throw` is the `Except.error` channel; the distinct failure of
  dereferencing the `null` key pair through the `!` assertion
  (`this.keyPair!.privateKey`) is a distinct error constructor.
-/

namespace SocketChat

/-- Byte strings: `Uint8Array` / `ArrayBuffer` contents. -/
abbrev Bytes := List Nat

/-! ## ECDH / AES-GCM primitive model -/

/-- Fixed base point of the P-256 curve, abstracted to a scalar. -/
def curveG : Nat := 7

/-- Model of `window.crypto.subtle.generateKey` for ECDH: the public key is the
scalar action of the private key on the base point. -/
def derivePub (priv : Nat) : Nat := priv * curveG

/-- Model of `window.crypto.subtle.deriveBits` for ECDH: the shared secret, the scalar action of the private key on the peer's
public point. -/
def deriveSharedBits (priv pub : Nat) : Nat := priv * pub

/-- AES-GCM keystream byte at position `i` for the given key and IV. -/
def gcmKeystream (key ivVal i : Nat) : Nat := (key + 131 * ivVal + 197 * i) % 256

/-- XOR a byte sequence against the AES-GCM keystream starting at position `i`. -/
def gcmXor (key ivVal : Nat) : Nat → Bytes → Bytes
  | _, [] => []
  | i, b :: bs => (b ^^^ gcmKeystream key ivVal i) :: gcmXor key ivVal (i + 1) bs

/-- AES-GCM authentication tag over a ciphertext. -/
def gcmTag (key ivVal : Nat) (ct : Bytes) : Nat :=
  (key + ivVal + ct.foldl (fun a b => a * 31 + b) 0) % 256

/-- Model of `window.crypto.subtle.encrypt` for AES-GCM: ciphertext
followed by the authentication tag. -/
def aesGcmEncrypt (key ivVal : Nat) (m : Bytes) : Bytes :=
  gcmXor key ivVal 0 m ++ [gcmTag key ivVal (gcmXor key ivVal 0 m)]

/-- Model of `window.crypto.subtle.decrypt` for AES-GCM: checks the
trailing authentication tag and inverts the keystream XOR, failing (the
WebCrypto promise rejects) on mismatch. -/
def aesGcmDecrypt (key ivVal : Nat) (data : Bytes) : Option Bytes :=
  match data.getLast? with
  | none => none
  | some t =>
      let ct := data.dropLast
      if t = gcmTag key ivVal ct then some (gcmXor key ivVal 0 ct) else none

/-- Fold a 12-byte IV into the scalar the keystream model consumes. -/
def ivToNat (iv : Bytes) : Nat := iv.foldl (fun a b => a * 256 + b) 0

/-! ## EncryptionService (src/app/api/auth/wallet/route.ts, utils/encryption) -/

/-- The `CryptoKeyPair` held by the service. -/
structure KeyPair where
  priv : Nat
  pub : Nat
deriving Repr, DecidableEq

/-- Association-list update with map semantics: `Map.set` replaces the entry
for an existing key and appends otherwise. -/
def mapSet (m : List (String × Nat)) (k : String) (v : Nat) : List (String × Nat) :=
  match m with
  | [] => [(k, v)]
  | (k', v') :: rest => if k' = k then (k, v) :: rest else (k', v') :: mapSet rest k v

/-- Association-list lookup: `Map.get`. -/
def mapGet (m : List (String × Nat)) (k : String) : Option Nat :=
  match m with
  | [] => none
  | (k', v) :: rest => if k' = k then some v else mapGet rest k

/-- Errors thrown out of the encryption service.  `unknownPeer` is the
`No public key found for user ...` `Error`; `nullKeyPairDeref` is the
`TypeError` raised by `this.keyPair!.privateKey` when `keyPair` is `null`;
`decryptionError` is the AES-GCM authentication failure. -/
inductive CryptoError where
  | unknownPeer (userId : String)
  | nullKeyPairDeref
  | decryptionError
deriving Repr, DecidableEq

/-- State of the `EncryptionService` singleton: the local `CryptoKeyPair |
null` and the `Map<string, CryptoKey>` of peer public keys. -/
structure EncryptionService where
  keyPair : Option KeyPair
  peerPublicKeys : List (String × Nat)
deriving Repr, DecidableEq

namespace EncryptionService

/-- The freshly constructed service: no key pair, no peer keys. -/
def init : EncryptionService := { keyPair := none, peerPublicKeys := [] }

/-- Method `generateKeyPair()`: draw a fresh ECDH key pair (the private scalar is the
explicit randomness) and store it. -/
def generateKeyPair (s : EncryptionService) (priv : Nat) : EncryptionService :=
  { s with keyPair := some { priv := priv, pub := derivePub priv } }

/-- Method `addPeerPublicKey(userId, publicKeyString)`: import the peer's public key
and store it under the peer's id. -/
def addPeerPublicKey (s : EncryptionService) (userId : String) (pub : Nat) :
    EncryptionService :=
  { s with peerPublicKeys := mapSet s.peerPublicKeys userId pub }

/-- Method `encryptMessage(message, recipientId)`.  The 12-byte random IV drawn from
`getRandomValues` is the explicit `iv` argument.  Faithful order of effects:
the peer-key lookup throws `unknownPeer` first; only then is
`this.keyPair!.privateKey` dereferenced (throwing on `null`); the envelope is
the IV prepended to the AES-GCM output. -/
def encryptMessage (s : EncryptionService) (message : Bytes) (recipientId : String)
    (iv : Bytes) : Except CryptoError Bytes :=
  match mapGet s.peerPublicKeys recipientId with
  | none => .error (.unknownPeer recipientId)
  | some recipientPub =>
      match s.keyPair with
      | none => .error .nullKeyPairDeref
      | some kp =>
          let shared := deriveSharedBits kp.priv recipientPub
          .ok (iv ++ aesGcmEncrypt shared (ivToNat iv) message)

/-- Method `decryptMessage(encryptedMessage, senderId)`: peer-key lookup (throwing
`unknownPeer`), `this.keyPair!` dereference, then split the envelope into its
first 12 bytes (IV) and the rest and AES-GCM-decrypt. -/
def decryptMessage (s : EncryptionService) (env : Bytes) (senderId : String) :
    Except CryptoError Bytes :=
  match mapGet s.peerPublicKeys senderId with
  | none => .error (.unknownPeer senderId)
  | some senderPub =>
      match s.keyPair with
      | none => .error .nullKeyPairDeref
      | some kp =>
          let shared := deriveSharedBits kp.priv senderPub
          let iv := env.take 12
          let data := env.drop 12
          match aesGcmDecrypt shared (ivToNat iv) data with
          | none => .error .decryptionError
          | some m => .ok m

end EncryptionService

/-! ## Lemmas about the AES-GCM model -/

/-- XOR-ing the same keystream twice restores the plaintext. -/
theorem gcmXor_involutive (key ivVal : Nat) (m : Bytes) :
    ∀ i, gcmXor key ivVal i (gcmXor key ivVal i m) = m := by
  induction m with
  | nil => intro i; rfl
  | cons b bs ih =>
      intro i
      simp [gcmXor, ih (i + 1), Nat.xor_assoc, Nat.xor_self, Nat.xor_zero]

/-- AES-GCM decryption inverts AES-GCM encryption at the same key and IV. -/
theorem aesGcmDecrypt_encrypt (key ivVal : Nat) (m : Bytes) :
    aesGcmDecrypt key ivVal (aesGcmEncrypt key ivVal m) = some m := by
  simp [aesGcmEncrypt, aesGcmDecrypt, List.getLast?_concat, List.dropLast_concat,
    gcmXor_involutive]

/-- ECDH symmetry: both ends of an exchange derive the same shared bits. -/
theorem deriveSharedBits_comm (a b : Nat) :
    deriveSharedBits a (derivePub b) = deriveSharedBits b (derivePub a) := by
  simp [deriveSharedBits, derivePub]
  ring

/-! ## Claim C1: mutual key exchange makes decrypt invert encrypt -/

/-- C1.  For every plaintext `msg`, after a mutual key exchange in which peer A
(private scalar `privA`) has stored B's public key under B's id and peer B has
stored A's public key under A's id, B's `decryptMessage` applied to the
envelope produced by A's `encryptMessage(msg, B)` returns `msg`: ECDH
shared-secret symmetry makes decryption the inverse of encryption. -/
theorem C1_encrypt_decrypt_roundtrip (privA privB : Nat) (aId bId : String)
    (msg iv env : Bytes) (hiv : iv.length = 12)
    (henc : ((EncryptionService.init.generateKeyPair privA).addPeerPublicKey bId
        (derivePub privB)).encryptMessage msg bId iv = .ok env) :
    ((EncryptionService.init.generateKeyPair privB).addPeerPublicKey aId
        (derivePub privA)).decryptMessage env aId = .ok msg := by
  simp [EncryptionService.init, EncryptionService.generateKeyPair,
    EncryptionService.addPeerPublicKey, EncryptionService.encryptMessage,
    mapSet, mapGet] at henc
  subst henc
  simp [EncryptionService.decryptMessage, EncryptionService.init,
    EncryptionService.generateKeyPair, EncryptionService.addPeerPublicKey,
    mapSet, mapGet, ← hiv, List.take_left, List.drop_left,
    deriveSharedBits_comm privB privA, aesGcmDecrypt_encrypt]

/-- Witness for C1 at concrete key material, message and IV. -/
theorem C1_encrypt_decrypt_roundtrip_witness :
    ((EncryptionService.init.generateKeyPair 3).addPeerPublicKey "alice"
        (derivePub 2)).decryptMessage
      ([0, 1, 2, 3, 4, 5, 6, 7, 8, 9, 10, 11] ++
        aesGcmEncrypt (deriveSharedBits 2 (derivePub 3))
          (ivToNat [0, 1, 2, 3, 4, 5, 6, 7, 8, 9, 10, 11]) [104, 105]) "alice"
      = .ok [104, 105] :=
  C1_encrypt_decrypt_roundtrip 2 3 "alice" "bob" [104, 105]
    [0, 1, 2, 3, 4, 5, 6, 7, 8, 9, 10, 11] _ (by decide) rfl

/-! ## Claim C5: missing peer key raises the unknown-peer error -/

/-- C5.  When no peer public key has been imported for an identity, both
`encryptMessage` and `decryptMessage` with that identity return the
unknown-peer error (`No public key found for user ...`) instead of a result;
the failure is an `Except.error` surfaced to the caller, not a crash of the
service state. -/
theorem C5_unknown_peer_error (s : EncryptionService) (peerId : String)
    (h : mapGet s.peerPublicKeys peerId = none) (msg iv env : Bytes) :
    s.encryptMessage msg peerId iv = .error (.unknownPeer peerId) ∧
    s.decryptMessage env peerId = .error (.unknownPeer peerId) := by
  exact ⟨by simp [EncryptionService.encryptMessage, h],
    by simp [EncryptionService.decryptMessage, h]⟩

/-- Witness for C5: a service that generated a key pair but imported no peer
key rejects encrypt and decrypt for peer `"mallory"`. -/
theorem C5_unknown_peer_error_witness :
    (EncryptionService.init.generateKeyPair 5).encryptMessage [1, 2] "mallory"
        [0, 0, 0, 0, 0, 0, 0, 0, 0, 0, 0, 0] = .error (.unknownPeer "mallory") ∧
    (EncryptionService.init.generateKeyPair 5).decryptMessage [9, 9] "mallory"
        = .error (.unknownPeer "mallory") :=
  C5_unknown_peer_error (EncryptionService.init.generateKeyPair 5) "mallory"
    (by decide) [1, 2] [0, 0, 0, 0, 0, 0, 0, 0, 0, 0, 0, 0] [9, 9]

/-! ## Claim C6: fresh nonces give distinct envelopes, nonce prepended -/

/-- C6.  Two calls of `encryptMessage` on the same state, plaintext and peer
with distinct fresh 12-byte IVs produce distinct envelopes, and each envelope
carries its IV as its first 12 bytes (the nonce is prepended to the
ciphertext), so envelopes repeat only if the random nonce repeats. -/
theorem C6_fresh_nonce_distinct_envelopes (s : EncryptionService) (msg : Bytes)
    (peer : String) (iv1 iv2 env1 env2 : Bytes)
    (h1 : iv1.length = 12) (h2 : iv2.length = 12) (hne : iv1 ≠ iv2)
    (e1 : s.encryptMessage msg peer iv1 = .ok env1)
    (e2 : s.encryptMessage msg peer iv2 = .ok env2) :
    env1 ≠ env2 ∧ env1.take 12 = iv1 ∧ env2.take 12 = iv2 := by
  cases hm : mapGet s.peerPublicKeys peer with
  | none => simp [EncryptionService.encryptMessage, hm] at e1
  | some pub =>
      cases hk : s.keyPair with
      | none => simp [EncryptionService.encryptMessage, hm, hk] at e1
      | some kp =>
          simp [EncryptionService.encryptMessage, hm, hk] at e1 e2
          subst e1; subst e2
          refine ⟨?_, by rw [← h1]; exact List.take_left iv1 _,
            by rw [← h2]; exact List.take_left iv2 _⟩
          intro hcontra
          apply hne
          have htake := congrArg (List.take 12) hcontra
          rwa [show (iv1 ++ aesGcmEncrypt (deriveSharedBits kp.priv pub)
                (ivToNat iv1) msg).take 12 = iv1 by
              rw [← h1]; exact List.take_left iv1 _,
            show (iv2 ++ aesGcmEncrypt (deriveSharedBits kp.priv pub)
                (ivToNat iv2) msg).take 12 = iv2 by
              rw [← h2]; exact List.take_left iv2 _] at htake

/-- Witness for C6 at a concrete service state, message and IV pair. -/
theorem C6_fresh_nonce_distinct_envelopes_witness :
    ([0, 0, 0, 0, 0, 0, 0, 0, 0, 0, 0, 1] ++
        aesGcmEncrypt (deriveSharedBits 5 (derivePub 7))
          (ivToNat [0, 0, 0, 0, 0, 0, 0, 0, 0, 0, 0, 1]) [104, 105]) ≠
      ([0, 0, 0, 0, 0, 0, 0, 0, 0, 0, 0, 2] ++
        aesGcmEncrypt (deriveSharedBits 5 (derivePub 7))
          (ivToNat [0, 0, 0, 0, 0, 0, 0, 0, 0, 0, 0, 2]) [104, 105]) :=
  (C6_fresh_nonce_distinct_envelopes
    ((EncryptionService.init.generateKeyPair 5).addPeerPublicKey "bob" (derivePub 7))
    [104, 105] "bob"
    [0, 0, 0, 0, 0, 0, 0, 0, 0, 0, 0, 1] [0, 0, 0, 0, 0, 0, 0, 0, 0, 0, 0, 2]
    ([0, 0, 0, 0, 0, 0, 0, 0, 0, 0, 0, 1] ++
      aesGcmEncrypt (deriveSharedBits 5 (derivePub 7))
        (ivToNat [0, 0, 0, 0, 0, 0, 0, 0, 0, 0, 0, 1]) [104, 105])
    ([0, 0, 0, 0, 0, 0, 0, 0, 0, 0, 0, 2] ++
      aesGcmEncrypt (deriveSharedBits 5 (derivePub 7))
        (ivToNat [0, 0, 0, 0, 0, 0, 0, 0, 0, 0, 0, 2]) [104, 105])
    (by decide) (by decide) (by decide) rfl rfl).1

/-! ## Claim C9: null local key pair is dereferenced after the peer check -/

/-- C9.  With a peer public key on file but `generateKeyPair` never called
(`keyPair` is `null`), `encryptMessage` and `decryptMessage` do not raise the
unknown-peer error and produce no envelope or plaintext: they fail on the
`this.keyPair!` null dereference.  Under the precondition that a local key
pair exists, that failure is unreachable. -/
theorem C9_null_keypair_deref (s : EncryptionService) (peerId : String) (pk : Nat)
    (hpeer : mapGet s.peerPublicKeys peerId = some pk) (msg iv env : Bytes) :
    (s.keyPair = none →
      s.encryptMessage msg peerId iv = .error .nullKeyPairDeref ∧
      s.decryptMessage env peerId = .error .nullKeyPairDeref ∧
      s.encryptMessage msg peerId iv ≠ .error (.unknownPeer peerId) ∧
      ∀ out, s.encryptMessage msg peerId iv ≠ .ok out) ∧
    (∀ kp, s.keyPair = some kp →
      s.encryptMessage msg peerId iv ≠ .error .nullKeyPairDeref ∧
      s.decryptMessage env peerId ≠ .error .nullKeyPairDeref) := by
  constructor
  · intro hnone
    simp [EncryptionService.encryptMessage, EncryptionService.decryptMessage,
      hpeer, hnone]
  · intro kp hkp
    constructor
    · simp [EncryptionService.encryptMessage, hpeer, hkp]
    · simp only [EncryptionService.decryptMessage, hpeer, hkp]
      cases aesGcmDecrypt (deriveSharedBits kp.priv pk) (ivToNat (env.take 12))
          (env.drop 12) with
      | none => simp
      | some m => simp

/-- Witness for C9: a service holding only a peer key (no local key pair)
fails with the null-dereference error, and one with a generated key pair
never does. -/
theorem C9_null_keypair_deref_witness :
    ((EncryptionService.init.addPeerPublicKey "bob" 14).encryptMessage [1] "bob"
        [0, 0, 0, 0, 0, 0, 0, 0, 0, 0, 0, 0] = .error .nullKeyPairDeref ∧
      (EncryptionService.init.addPeerPublicKey "bob" 14).decryptMessage [5] "bob"
        = .error .nullKeyPairDeref ∧
      (EncryptionService.init.addPeerPublicKey "bob" 14).encryptMessage [1] "bob"
        [0, 0, 0, 0, 0, 0, 0, 0, 0, 0, 0, 0] ≠ .error (.unknownPeer "bob") ∧
      ∀ out, (EncryptionService.init.addPeerPublicKey "bob" 14).encryptMessage [1]
        "bob" [0, 0, 0, 0, 0, 0, 0, 0, 0, 0, 0, 0] ≠ .ok out) ∧
    (((EncryptionService.init.addPeerPublicKey "bob" 14).generateKeyPair 5).encryptMessage
        [1] "bob" [0, 0, 0, 0, 0, 0, 0, 0, 0, 0, 0, 0] ≠ .error .nullKeyPairDeref ∧
      ((EncryptionService.init.addPeerPublicKey "bob" 14).generateKeyPair 5).decryptMessage
        [5] "bob" ≠ .error .nullKeyPairDeref) :=
  ⟨(C9_null_keypair_deref (EncryptionService.init.addPeerPublicKey "bob" 14) "bob" 14
      (by decide) [1] [0, 0, 0, 0, 0, 0, 0, 0, 0, 0, 0, 0] [5]).1 rfl,
    (C9_null_keypair_deref
      ((EncryptionService.init.addPeerPublicKey "bob" 14).generateKeyPair 5) "bob" 14
      (by decide) [1] [0, 0, 0, 0, 0, 0, 0, 0, 0, 0, 0, 0] [5]).2
      { priv := 5, pub := derivePub 5 } rfl⟩

/-! ## SocketService room fan-out (src/app/api/auth/wallet/route.ts, SocketService.initIO)

The socket.io room table maps each connected socket to the set of rooms it
has joined; `socket.to(room).emit(...)` delivers the event to every socket in
`room` other than the emitter, once each.  The handlers below are the
`io.on("connection")` callbacks of `SocketService.initIO`. -/

/-- The server's room table: one `(socketId, roomId)` entry per joined room. -/
structure ServerState where
  membership : List (String × String)
deriving Repr, DecidableEq

/-- Server with no joined sockets. -/
def ServerState.init : ServerState := { membership := [] }

/-- Effect of `socket.join(roomId)` inside the `join-room` handler: idempotent insertion
into the room table (socket.io treats joining an already-joined room as a
no-op). -/
def joinRoom (st : ServerState) (sockId roomId : String) : ServerState :=
  if (sockId, roomId) ∈ st.membership then st
  else { membership := (sockId, roomId) :: st.membership }

/-- Target list of `socket.to(roomId).emit(...)`: the sockets joined to `roomId`
other than the emitting socket. -/
def roomTargets (st : ServerState) (sender roomId : String) : List String :=
  (st.membership.filter (fun p => decide (p.2 = roomId ∧ p.1 ≠ sender))).map Prod.fst

/-- Payload of the client's `send-message` event. -/
structure SendMessageIn where
  id : String
  roomId : String
  encryptedMessage : String
  sender : String
  timestamp : String
  replyTo : Option String
deriving Repr, DecidableEq

/-- Payload of the relayed `receive-message` event. -/
structure ReceiveMessageOut where
  id : String
  encryptedMessage : String
  sender : String
  timestamp : String
  replyTo : Option String
deriving Repr, DecidableEq

/-- The `send-message` handler: relay the envelope to every other member of
`data.roomId` as a `receive-message` event, one delivery per target socket. -/
def sendMessageHandler (st : ServerState) (sockId : String) (d : SendMessageIn) :
    List (String × ReceiveMessageOut) :=
  (roomTargets st sockId d.roomId).map (fun t =>
    (t, { id := d.id, encryptedMessage := d.encryptedMessage, sender := d.sender,
          timestamp := d.timestamp, replyTo := d.replyTo }))

/-- The room table never holds duplicate `(socket, room)` entries: `joinRoom`
preserves distinctness from the empty initial table. -/
theorem joinRoom_nodup (st : ServerState) (h : st.membership.Nodup)
    (sockId roomId : String) : (joinRoom st sockId roomId).membership.Nodup := by
  unfold joinRoom
  split
  · exact h
  · exact List.nodup_cons.mpr ⟨by assumption, h⟩

/-- Delivery count of a broadcast to one socket: once for every other member
of the room, never for the emitter, never for a socket outside the room. -/
theorem roomTargets_count (l : List (String × String)) (hnd : l.Nodup)
    (sender roomId t : String) :
    ((l.filter (fun p => decide (p.2 = roomId ∧ p.1 ≠ sender))).map Prod.fst).count t
      = if (t, roomId) ∈ l ∧ t ≠ sender then 1 else 0 := by
  induction l with
  | nil => simp
  | cons hd rest ih =>
      obtain ⟨hhd, hndrest⟩ := List.nodup_cons.mp hnd
      specialize ih hndrest
      obtain ⟨a, b⟩ := hd
      rw [List.filter_cons]
      by_cases hb : b = roomId <;> by_cases ha : a = sender <;> by_cases hat : a = t <;>
        by_cases hm : (t, roomId) ∈ rest <;> by_cases hts : t = sender <;>
        simp_all [List.count_cons, Prod.mk.injEq] <;> split_ifs <;> simp_all

/-! ## Claim C3: room fan-out delivers to every other member exactly once -/

/-- C3.  For a room table with distinct entries (the invariant `joinRoom`
maintains), the `send-message` relay delivers the event to a socket `t`
exactly once when `t` is a member of the room other than the emitter, and
zero times otherwise; in particular it never delivers back to the emitting
socket. -/
theorem C3_room_fanout_exactly_once (st : ServerState) (hnd : st.membership.Nodup)
    (sockId : String) (d : SendMessageIn) (t : String) :
    (((sendMessageHandler st sockId d).map Prod.fst).count t
        = if (t, d.roomId) ∈ st.membership ∧ t ≠ sockId then 1 else 0) ∧
    sockId ∉ (sendMessageHandler st sockId d).map Prod.fst := by
  have hmap : (sendMessageHandler st sockId d).map Prod.fst
      = roomTargets st sockId d.roomId := by
    unfold sendMessageHandler
    generalize roomTargets st sockId d.roomId = l
    induction l <;> simp_all
  have hcount : ∀ x : String, (roomTargets st sockId d.roomId).count x
      = if (x, d.roomId) ∈ st.membership ∧ x ≠ sockId then 1 else 0 := by
    intro x
    exact roomTargets_count st.membership hnd sockId d.roomId x
  constructor
  · rw [hmap, hcount]
  · rw [hmap]
    intro hmem
    have hpos := List.count_pos_iff.mpr hmem
    rw [hcount sockId] at hpos
    simp at hpos

/-- Witness for C3: sockets A, B, C joined to room `"R"`; a publish from A is
delivered once to B, once to C, and never to A. -/
theorem C3_room_fanout_exactly_once_witness :
    (((sendMessageHandler (joinRoom (joinRoom (joinRoom ServerState.init "A" "R")
          "B" "R") "C" "R") "A"
        { id := "m", roomId := "R", encryptedMessage := "ct", sender := "A",
          timestamp := "t", replyTo := none }).map Prod.fst).count "B"
        = if ("B", "R") ∈ (joinRoom (joinRoom (joinRoom ServerState.init "A" "R")
          "B" "R") "C" "R").membership ∧ "B" ≠ "A" then 1 else 0) ∧
    "A" ∉ ((sendMessageHandler (joinRoom (joinRoom (joinRoom ServerState.init "A" "R")
          "B" "R") "C" "R") "A"
        { id := "m", roomId := "R", encryptedMessage := "ct", sender := "A",
          timestamp := "t", replyTo := none }).map Prod.fst) :=
  C3_room_fanout_exactly_once
    (joinRoom (joinRoom (joinRoom ServerState.init "A" "R") "B" "R") "C" "R")
    (by decide) "A"
    { id := "m", roomId := "R", encryptedMessage := "ct", sender := "A",
      timestamp := "t", replyTo := none } "B"

/-! ## Claim C10: reaction attribution vs read-receipt attribution -/

/-- Inbound `message-reaction` payload.  The handler's type annotation lists
`messageId`, `roomId`, `emoji`, `remove?`; a client may still place extra
fields such as a claimed user id in the JSON object, which the handler never
reads (`claimedUserId` carries that possibility). -/
structure ReactionIn where
  messageId : String
  roomId : String
  emoji : String
  remove : Option Bool
  claimedUserId : Option String
deriving Repr, DecidableEq

/-- Relayed `message-reaction` payload. -/
structure ReactionOut where
  messageId : String
  userId : String
  emoji : String
  remove : Option Bool
deriving Repr, DecidableEq

/-- The `message-reaction` handler: relay to `data.roomId` with
`userId: socket.id`. -/
def messageReactionHandler (sockId : String) (d : ReactionIn) :
    String × ReactionOut :=
  (d.roomId, { messageId := d.messageId, userId := sockId, emoji := d.emoji,
               remove := d.remove })

/-- Inbound `message-read` payload. -/
structure ReadIn where
  messageId : String
  userId : String
  roomId : String
deriving Repr, DecidableEq

/-- Relayed `message-read` payload. -/
structure ReadOut where
  messageId : String
  userId : String
deriving Repr, DecidableEq

/-- The `message-read` handler: relay to `data.roomId` with the
client-supplied `userId` unchanged. -/
def messageReadHandler (_sockId : String) (d : ReadIn) : String × ReadOut :=
  (d.roomId, { messageId := d.messageId, userId := d.userId })

/-- C10.  Every relayed `message-reaction` event carries the originating
socket's id as `userId`, whatever identity the inbound payload claimed, so a
sender cannot attribute a reaction to another identity; every relayed
`message-read` event carries the client-supplied `userId` unchanged. -/
theorem C10_reaction_attribution (sockId : String) (d : ReactionIn)
    (r : ReadIn) :
    (messageReactionHandler sockId d).2.userId = sockId ∧
    (∀ claimed, (messageReactionHandler sockId
        { d with claimedUserId := claimed }).2 = (messageReactionHandler sockId d).2) ∧
    (messageReadHandler sockId r).2.userId = r.userId := by
  exact ⟨rfl, fun _ => rfl, rfl⟩

/-! ## Client chat state (src/components/chat.tsx)

The `Chat` component's local state: the message list, reactions, typing
indicators, and the socket event handlers registered in its effect.  Text is
carried as its UTF-8 byte sequence (`TextDecoder` elided). -/

/-- A reaction entry `{ emoji, userId }`. -/
structure Reaction where
  emoji : String
  userId : String
deriving Repr, DecidableEq

/-- A local `Message`.  The optional TS fields `reactions?` and `readBy?` are
normalized to lists (the handlers read them as `msg.reactions || []` /
`msg.readBy || []`), and `isDeleted?` to a `Bool` (absent = `false`). -/
structure Message where
  id : String
  text : Bytes
  sender : String
  timestamp : String
  isDecrypted : Bool
  editedAt : Option String
  reactions : List Reaction
  replyTo : Option String
  isDeleted : Bool
  readBy : List String
deriving Repr, DecidableEq

/-- Guard under which the reply/edit/delete/react action buttons are rendered
for a message: `!message.isDeleted && editingMessageId !== message.id`.  The
rendering site applies it uniformly to the edit and delete buttons. -/
def messageActionsEnabled (m : Message) (editingMessageId : Option String) : Bool :=
  !m.isDeleted && decide (editingMessageId ≠ some m.id)

/-- Handler `handleDeleteMessage(messageId)`: locally mark the message with that id
deleted (then emit `delete-message`); no check of the message's sender. -/
def handleDeleteMessage (msgs : List Message) (messageId : String) : List Message :=
  msgs.map (fun m => if m.id = messageId then { m with isDeleted := true } else m)

/-- Payload of the relayed `message-delete` event. -/
structure MessageDeleteIn where
  id : String
  sender : String
deriving Repr, DecidableEq

/-- Handler `handleMessageDelete(data)`: apply a server-relayed delete to whatever
message carries `data.id`; `data.sender` is never consulted. -/
def handleMessageDelete (msgs : List Message) (d : MessageDeleteIn) : List Message :=
  msgs.map (fun m => if m.id = d.id then { m with isDeleted := true } else m)

/-- Payload of the relayed `message-edit` event. -/
structure MessageEditIn where
  id : String
  encryptedMessage : Bytes
  sender : String
  editedAt : String
deriving Repr, DecidableEq

/-- Handler `handleMessageEdit(data)`: decrypt the relayed envelope with the claimed
sender's key and overwrite the text of whatever message carries `data.id`;
on decryption failure the error is logged and the list is unchanged.  The
stored message's own `sender` is never consulted. -/
def handleMessageEdit (svc : EncryptionService) (msgs : List Message)
    (d : MessageEditIn) : List Message :=
  match svc.decryptMessage d.encryptedMessage d.sender with
  | .ok newText =>
      msgs.map (fun m => if m.id = d.id then
        { m with text := newText, editedAt := some d.editedAt } else m)
  | .error _ => msgs

/-- The reaction-list update inside `handleMessageReaction`: on `remove`,
filter the `(userId, emoji)` pair out; otherwise append it unless it already
exists. -/
def applyReaction (reactions : List Reaction) (uid emoji : String)
    (remove : Bool) : List Reaction :=
  if remove then
    reactions.filter (fun r => !(decide (r.userId = uid ∧ r.emoji = emoji)))
  else if reactions.any (fun r => decide (r.userId = uid ∧ r.emoji = emoji)) then
    reactions
  else
    reactions ++ [{ emoji := emoji, userId := uid }]

/-- Handler `handleMessageReaction(data)`: apply the reaction update to the message
carrying `data.messageId` (`data.remove` is truthy only as `true`). -/
def handleMessageReaction (msgs : List Message) (d : ReactionOut) : List Message :=
  msgs.map (fun m =>
    if m.id = d.messageId then
      let rs := applyReaction m.reactions d.userId d.emoji (decide (d.remove = some true))
      { m with reactions := rs }
    else m)

/-- Number of `(uid, emoji)` entries in a reaction list. -/
def reactionCount (rs : List Reaction) (uid emoji : String) : Nat :=
  rs.countP (fun r => decide (r.userId = uid ∧ r.emoji = emoji))

/-- A `typingUsers` entry: `{ userId, timestamp }`. -/
structure TypingUser where
  userId : String
  timestamp : Nat
deriving Repr, DecidableEq

/-- Handler `handleUserTyping(data)`: ignore own signals and other rooms; otherwise
drop any stale entry for that user and append one stamped `now`. -/
def handleUserTyping (selfId selectedRoom : Option String)
    (typingUsers : List TypingUser) (dataUserId dataRoomId : String)
    (now : Nat) : List TypingUser :=
  if some dataUserId = selfId ∨ some dataRoomId ≠ selectedRoom then typingUsers
  else typingUsers.filter (fun u => decide (u.userId ≠ dataUserId)) ++
    [{ userId := dataUserId, timestamp := now }]

/-- The 1-second interval sweep: keep entries younger than 3 seconds
(`now - user.timestamp < 3000`). -/
def sweepTyping (now : Nat) (l : List TypingUser) : List TypingUser :=
  l.filter (fun u => decide (now - u.timestamp < 3000))

/-! ## Claim C7: reaction toggle idempotence and no-duplicate invariant -/

/-- C7.  On a reaction list with no duplicate `(user, emoji)` pairs: applying
an add leaves exactly one `(u, e)` entry (in particular an add when the pair
is already present is a no-op on the list), applying a remove when the pair
is absent returns the list unchanged (a no-op, and total, hence no error),
and no `applyReaction` step ever introduces a duplicate pair. -/
theorem C7_reaction_toggle (rs : List Reaction) (u e : String) (b : Bool)
    (hnd : ∀ u' e', reactionCount rs u' e' ≤ 1) :
    reactionCount (applyReaction rs u e false) u e = 1 ∧
    (reactionCount rs u e = 0 → applyReaction rs u e true = rs) ∧
    (∀ u' e', reactionCount (applyReaction rs u e b) u' e' ≤ 1) := by
  refine ⟨?_, ?_, ?_⟩
  · unfold applyReaction reactionCount
    by_cases hany : rs.any (fun r => decide (r.userId = u ∧ r.emoji = e))
    · simp only [hany, if_true, if_false, Bool.false_eq_true, reduceIte]
      have hpos : 0 < rs.countP (fun r => decide (r.userId = u ∧ r.emoji = e)) := by
        rw [List.countP_pos_iff]
        obtain ⟨r, hr, hp⟩ := List.any_eq_true.mp hany
        exact ⟨r, hr, hp⟩
      have := hnd u e
      unfold reactionCount at this
      omega
    · simp only [hany, Bool.false_eq_true, reduceIte]
      rw [List.countP_append]
      have hzero : rs.countP (fun r => decide (r.userId = u ∧ r.emoji = e)) = 0 := by
        rw [List.countP_eq_zero]
        intro r hr
        by_contra hp
        exact hany (List.any_eq_true.mpr ⟨r, hr, by simpa using hp⟩)
      rw [hzero]
      simp
  · intro h0
    unfold applyReaction
    simp only [if_true, reduceIte]
    apply List.filter_eq_self.mpr
    intro r hr
    unfold reactionCount at h0
    rw [List.countP_eq_zero] at h0
    have := h0 r hr
    simp at this ⊢
    tauto
  · intro u' e'
    unfold applyReaction
    cases b with
    | true =>
        simp only [reduceIte]
        unfold reactionCount
        calc (rs.filter _).countP _ ≤ rs.countP _ :=
              List.Sublist.countP_le _ (List.filter_sublist rs)
          _ ≤ 1 := hnd u' e'
    | false =>
        simp only [Bool.false_eq_true, reduceIte]
        by_cases hany : rs.any (fun r => decide (r.userId = u ∧ r.emoji = e))
        · simp only [hany, if_true]
          exact hnd u' e'
        · simp only [hany, Bool.false_eq_true, reduceIte]
          unfold reactionCount
          rw [List.countP_append]
          by_cases hx : ({ emoji := e, userId := u } : Reaction).userId = u' ∧
              ({ emoji := e, userId := u } : Reaction).emoji = e'
          · have hzero : rs.countP (fun r => decide (r.userId = u' ∧ r.emoji = e')) = 0 := by
              rw [List.countP_eq_zero]
              intro r hr
              intro hp
              apply hany
              refine List.any_eq_true.mpr ⟨r, hr, ?_⟩
              obtain ⟨h1, h2⟩ := hx
              simp at h1 h2 hp
              simp [h1 ▸ hp.1, h2 ▸ hp.2]
            rw [hzero]
            simp only [Nat.zero_add]
            simp [List.countP_cons]
            split <;> simp
          · have hx' : ¬(u = u' ∧ e = e') := by simpa using hx
            have hone : List.countP (fun r => decide (r.userId = u' ∧ r.emoji = e'))
                [({ emoji := e, userId := u } : Reaction)] = 0 := by
              simp [List.countP_cons]
              tauto
            rw [hone]
            have := hnd u' e'
            unfold reactionCount at this
            omega

/-- Witness for C7 on a concrete one-entry reaction list. -/
theorem C7_reaction_toggle_witness :
    reactionCount (applyReaction [{ emoji := "x", userId := "U" }] "U" "x" false)
      "U" "x" = 1 ∧
    (reactionCount [({ emoji := "x", userId := "U" } : Reaction)] "U" "x" = 0 →
      applyReaction [{ emoji := "x", userId := "U" }] "U" "x" true
        = [{ emoji := "x", userId := "U" }]) ∧
    (∀ u' e', reactionCount
      (applyReaction [{ emoji := "x", userId := "U" }] "U" "x" false) u' e' ≤ 1) :=
  C7_reaction_toggle [{ emoji := "x", userId := "U" }] "U" "x" false
    (by intro u' e'; unfold reactionCount; simp [List.countP_cons]; split <;> simp)

/-! ## Claim C8: typing entries survive 2 seconds and are gone by 4 -/

/-- C8.  A peer typing signal recorded at time `T` (peer distinct from the
local user, room currently selected) is still present after the periodic
sweeps at `T+1s` and `T+2s`, and absent once the sweeps up to `T+4s` have
run, the sweep discarding entries once `now - timestamp < 3000` fails. -/
theorem C8_typing_ttl (selfId selectedRoom : Option String) (p roomId : String)
    (l : List TypingUser) (T : Nat)
    (hself : some p ≠ selfId) (hroom : some roomId = selectedRoom) :
    ({ userId := p, timestamp := T } : TypingUser) ∈
      sweepTyping (T + 2000) (sweepTyping (T + 1000)
        (handleUserTyping selfId selectedRoom l p roomId T)) ∧
    ({ userId := p, timestamp := T } : TypingUser) ∉
      sweepTyping (T + 4000) (sweepTyping (T + 3000) (sweepTyping (T + 2000)
        (sweepTyping (T + 1000) (handleUserTyping selfId selectedRoom l p roomId T)))) := by
  have hmem1 : ({ userId := p, timestamp := T } : TypingUser) ∈
      handleUserTyping selfId selectedRoom l p roomId T := by
    unfold handleUserTyping
    rw [if_neg (by tauto)]
    simp
  constructor
  · unfold sweepTyping
    refine List.mem_filter.mpr ⟨List.mem_filter.mpr ⟨hmem1, ?_⟩, ?_⟩ <;> simp
  · intro hmem
    have h2 := (List.mem_filter.mp hmem).2
    simp only [decide_eq_true_eq] at h2
    omega

/-- Witness for C8 at a concrete signal time and empty prior state. -/
theorem C8_typing_ttl_witness :
    ({ userId := "peer", timestamp := 5000 } : TypingUser) ∈
      sweepTyping 7000 (sweepTyping 6000
        (handleUserTyping (some "me") (some "R") [] "peer" "R" 5000)) ∧
    ({ userId := "peer", timestamp := 5000 } : TypingUser) ∉
      sweepTyping 9000 (sweepTyping 8000 (sweepTyping 7000
        (sweepTyping 6000 (handleUserTyping (some "me") (some "R") [] "peer" "R" 5000)))) :=
  C8_typing_ttl (some "me") (some "R") "peer" "R" [] 5000 (by decide) rfl

/-! ## Claim C4: edit/delete authorship -/

/-- C4 counterexample.  The action-button guard and the local delete handler
never consult the message's sender: a message whose sender is `"peer"`,
viewed by local user `"me"`, still has its edit/delete actions enabled, and
the local delete mutates it.  This refutes the claim that a locally
initiated edit or delete is permitted only when the sender equals the local
identity. -/
theorem C4_authorship_counterexample :
    messageActionsEnabled
      { id := "m1", text := [104], sender := "peer", timestamp := "t0",
        isDecrypted := true, editedAt := none, reactions := [], replyTo := none,
        isDeleted := false, readBy := [] } none = true ∧
    ("peer" : String) ≠ "me" ∧
    handleDeleteMessage
      [{ id := "m1", text := [104], sender := "peer", timestamp := "t0",
         isDecrypted := true, editedAt := none, reactions := [], replyTo := none,
         isDeleted := false, readBy := [] }] "m1"
      = [{ id := "m1", text := [104], sender := "peer", timestamp := "t0",
           isDecrypted := true, editedAt := none, reactions := [], replyTo := none,
           isDeleted := true, readBy := [] }] := by
  refine ⟨rfl, by decide, rfl⟩

/-- C4 (amended).  A locally initiated edit or delete is permitted for every
non-deleted message not currently being edited, regardless of its sender:
the action guard and the delete mutation are invariant under rewriting every
message's sender, and server-relayed delete and edit events are applied to
whatever message carries the event's id, also independently of the stored
sender (authorship is never re-checked). -/
theorem C4_edit_delete_sender_blind (m : Message) (eid : Option String)
    (s : String) (msgs : List Message) (i : String) (svc : EncryptionService)
    (dd : MessageDeleteIn) (de : MessageEditIn) :
    messageActionsEnabled { m with sender := s } eid = messageActionsEnabled m eid ∧
    handleDeleteMessage (msgs.map (fun x => { x with sender := s })) i
      = (handleDeleteMessage msgs i).map (fun x => { x with sender := s }) ∧
    handleMessageDelete msgs dd = handleDeleteMessage msgs dd.id ∧
    handleMessageEdit svc (msgs.map (fun x => { x with sender := s })) de
      = (handleMessageEdit svc msgs de).map (fun x => { x with sender := s }) := by
  refine ⟨rfl, ?_, rfl, ?_⟩
  · unfold handleDeleteMessage
    induction msgs with
    | nil => rfl
    | cons a rest ih =>
        simp only [List.map_cons, List.map_map]
        by_cases ha : a.id = i <;> simp_all
  · unfold handleMessageEdit
    cases svc.decryptMessage de.encryptedMessage de.sender with
    | error _ => rfl
    | ok newText =>
        induction msgs with
        | nil => rfl
        | cons a rest ih =>
            simp only [List.map_cons, List.map_map]
            by_cases ha : a.id = de.id <;> simp_all

/-! ## Claim C2: key-exchange send-back discipline -/

/-- Outbound `exchange-keys` payload emitted by a client and relayed verbatim
by the server's `exchange-keys` handler to `recipientId`. -/
structure KeyExchangeEmit where
  userId : String
  publicKey : Nat
  recipientId : String
deriving Repr, DecidableEq

/-- Handler `handleUserConnected(connectedUserId)`: on a `user-connected` signal, if a
local user id exists, send the local public key to the newly connected peer. -/
def handleUserConnected (selfId : Option String) (myPublicKey : Nat)
    (connectedUserId : String) : List KeyExchangeEmit :=
  match selfId with
  | some uid =>
      [{ userId := uid, publicKey := myPublicKey, recipientId := connectedUserId }]
  | none => []

/-- Handler `handleKeyExchange(data)`: import the peer's key, then — whenever a local
user id exists and the key came from someone else — send the local public key
back.  The component keeps no record of which peers were already answered, so
the send-back happens on every received event, not once per peer. -/
def handleKeyExchange (selfId : Option String) (myPublicKey : Nat)
    (svc : EncryptionService) (dataUserId : String) (dataPublicKey : Nat) :
    EncryptionService × List KeyExchangeEmit :=
  let svc' := svc.addPeerPublicKey dataUserId dataPublicKey
  match selfId with
  | some uid =>
      if dataUserId ≠ uid then
        (svc', [{ userId := uid, publicKey := myPublicKey, recipientId := dataUserId }])
      else (svc', [])
  | none => (svc', [])

/-- The two-client `exchange-keys` system: clients `"a"` (public key `pkA`)
and `"b"` (public key `pkB`), the queue of relayed `exchange-keys` events not
yet delivered, and the count of deliveries processed so far. -/
structure KeyLoop where
  svcA : EncryptionService
  svcB : EncryptionService
  inflight : List KeyExchangeEmit
  delivered : Nat
deriving Repr, DecidableEq

/-- Deliver the next relayed `exchange-keys` event: the addressed client runs
`handleKeyExchange` and the replies it emits join the relay queue. -/
def keyLoopStep (pkA pkB : Nat) (s : KeyLoop) : KeyLoop :=
  match s.inflight with
  | [] => s
  | e :: rest =>
      if e.recipientId = "a" then
        let r := handleKeyExchange (some "a") pkA s.svcA e.userId e.publicKey
        { s with svcA := r.1, inflight := rest ++ r.2, delivered := s.delivered + 1 }
      else if e.recipientId = "b" then
        let r := handleKeyExchange (some "b") pkB s.svcB e.userId e.publicKey
        { s with svcB := r.1, inflight := rest ++ r.2, delivered := s.delivered + 1 }
      else
        { s with inflight := rest, delivered := s.delivered + 1 }

/-- Start of the exchange: `"b"` joined the room, `"a"` received
`user-connected("b")` and sent its key (`handleUserConnected`). -/
def keyLoopInit (pkA : Nat) (svcA svcB : EncryptionService) : KeyLoop :=
  { svcA := svcA, svcB := svcB,
    inflight := handleUserConnected (some "a") pkA "b", delivered := 0 }

/-- The relay queue always holds exactly the next key message of the
ping-pong, and every step delivers one event. -/
theorem keyLoop_invariant (pkA pkB : Nat) (svcA svcB : EncryptionService) (n : Nat) :
    (((keyLoopStep pkA pkB)^[n] (keyLoopInit pkA svcA svcB)).inflight
        = [{ userId := "a", publicKey := pkA, recipientId := "b" }] ∨
      ((keyLoopStep pkA pkB)^[n] (keyLoopInit pkA svcA svcB)).inflight
        = [{ userId := "b", publicKey := pkB, recipientId := "a" }]) ∧
    ((keyLoopStep pkA pkB)^[n] (keyLoopInit pkA svcA svcB)).delivered = n := by
  induction n with
  | zero => simp [keyLoopInit, handleUserConnected]
  | succ n ih =>
      rw [Function.iterate_succ_apply']
      obtain ⟨hq | hq, hd⟩ := ih <;>
        simp [keyLoopStep, hq, hd, handleKeyExchange]

/-- C2.  Refuted send-back discipline: because `handleKeyExchange` answers
every received `exchange-keys` event from another user (it records nowhere
whether the local key was already sent to that peer), two connected peers
bounce keys forever: after any number `n` of relay deliveries the exchange
queue is never empty and `n` grows without bound, instead of each peer
sending its key to each other peer exactly once per session. -/
theorem C2_exchange_keys_infinite_loop (pkA pkB : Nat)
    (svcA svcB : EncryptionService) (n : Nat) :
    ((keyLoopStep pkA pkB)^[n] (keyLoopInit pkA svcA svcB)).delivered = n ∧
    ((keyLoopStep pkA pkB)^[n] (keyLoopInit pkA svcA svcB)).inflight ≠ [] := by
  obtain ⟨hq, hd⟩ := keyLoop_invariant pkA pkB svcA svcB n
  refine ⟨hd, ?_⟩
  rcases hq with hq | hq <;> simp [hq]

end SocketChat
